import Mathlib

/-!
Verification of the tag-tree HTML generator (`tagsclass.py`).

The development shallowly embeds the library: `Tag` mirrors the Python class
with fields `tag`, `attributes` (insertion-ordered pairs, as a Python dict),
`is_single`, `children`, `text`, `indent`; `Tag.get_lines` mirrors
`Tag.get_lines(indent=None, set_offset=0)`; `Tag.init` mirrors
`Tag.__init__`; `Tag.iadd` mirrors `Tag.__iadd__`; `HTML` mirrors the
`HTML` class with its `output` target, and the observable effect of
`HTML.flush` is modelled as a value of type `FlushEffect`.
-/

namespace TagsClass

/-- Python's `sep.join(xs)`: empty string for an empty list, otherwise the
elements interleaved with `sep`. -/
def pyJoin (sep : String) : List String → String
  | [] => ""
  | [x] => x
  | x :: y :: ys => x ++ sep ++ pyJoin sep (y :: ys)

/-- Python's `n * s` on a string: `n` concatenated copies of `s`. -/
def strRepeat (s : String) : Nat → String
  | 0 => ""
  | n + 1 => s ++ strRepeat s n

/-- One serialized attribute, `'%s="%s"' % (attr, value)` from
`Tag.get_lines` (src/tagsclass.py:58). -/
def attrPair (p : String × String) : String :=
  p.1 ++ "=\"" ++ p.2 ++ "\""

/-- The serialized attribute string: each stored attribute in order,
joined with single spaces (src/tagsclass.py:56-59). -/
def serializeAttrs (l : List (String × String)) : String :=
  pyJoin " " (l.map attrPair)

/-- The tag-tree node: `tag`, `attributes` (ordered key/value pairs, the
insertion-ordered dict), `is_single`, `children`, `text`, `indent`
(src/tagsclass.py:12-18). -/
inductive Tag where
  | mk : String → List (String × String) → Bool → List Tag → String → String → Tag

/-- Field accessor for `self.tag`. -/
def Tag.tag : Tag → String
  | Tag.mk t _ _ _ _ _ => t

/-- Field accessor for `self.attributes`. -/
def Tag.attributes : Tag → List (String × String)
  | Tag.mk _ a _ _ _ _ => a

/-- Field accessor for `self.is_single`. -/
def Tag.is_single : Tag → Bool
  | Tag.mk _ _ s _ _ _ => s

/-- Field accessor for `self.children`. -/
def Tag.children : Tag → List Tag
  | Tag.mk _ _ _ c _ _ => c

/-- Field accessor for `self.text`. -/
def Tag.text : Tag → String
  | Tag.mk _ _ _ _ x _ => x

/-- Field accessor for `self.indent`. -/
def Tag.indent : Tag → String
  | Tag.mk _ _ _ _ _ i => i

/-- Python assignment `node.text = x` (the spec's post-construction text
mutation). -/
def Tag.setText : Tag → String → Tag
  | Tag.mk t a s c _ i, x => Tag.mk t a s c x i

/-- Python assignment `node.indent = i` (the spec's per-node indent
override). -/
def Tag.setIndent : Tag → String → Tag
  | Tag.mk t a s c x _, i => Tag.mk t a s c x i

mutual

/-- `Tag.get_lines(indent=None, set_offset=0)` (src/tagsclass.py:46-80).
`Option.none` for the first argument models Python's `indent=None`, which is
resolved to `self.indent`.  A single tag yields one line
`{set_offset*indent}<tag[ attrs]/>`; a paired tag yields the opening line,
then `indent + text` when `text` is non-empty, then every child's lines
(each child rendered recursively with the resolved `indent` and offset 0)
prefixed with `indent`, then the closing line; a non-zero `set_offset`
prefixes every line of the result with `set_offset` copies of `indent`. -/
def Tag.get_lines : Tag → Option String → Nat → List String
  | Tag.mk tag attributes single children text selfIndent, indentArg, set_offset =>
    let indent := indentArg.getD selfIndent
    let attrs := serializeAttrs attributes
    if single then
      [strRepeat indent set_offset ++ ("<" ++ tag ++ (if attrs = "" then "" else " " ++ attrs) ++ "/>")]
    else
      let lines : List String :=
        ("<" ++ tag ++ (if attrs = "" then "" else " " ++ attrs) ++ ">")
        :: ((if text = "" then [] else [indent ++ text])
            ++ Tag.childLines children indent
            ++ ["</" ++ tag ++ ">"])
      if set_offset = 0 then lines else lines.map (fun line => strRepeat indent set_offset ++ line)

/-- The child loop of `Tag.get_lines` (src/tagsclass.py:73-74): for each
child in order, its recursively rendered lines each prefixed with `indent`. -/
def Tag.childLines : List Tag → String → List String
  | [], _ => []
  | c :: cs, indent =>
    (Tag.get_lines c (some indent) 0).map (fun line => indent ++ line) ++ Tag.childLines cs indent

end

/-- `Tag.__str__` (src/tagsclass.py:42-44), the spec's `render_text`:
`get_lines` with the default arguments, joined with newlines. -/
def Tag.render_text (t : Tag) : String :=
  pyJoin "\n" (t.get_lines Option.none 0)

/-- The `klass` constructor argument (src/tagsclass.py:12): a single string
or an ordered sequence of class tokens; the default is the empty tuple,
modelled as `ofList []`. -/
inductive Klass where
  | ofStr : String → Klass
  | ofList : List String → Klass

/-- The `class` attribute produced from the `klass` argument by
`Tag.__init__` (src/tagsclass.py:20-24): nothing when `klass` is falsy
(empty string, empty tuple/list), otherwise one `class` entry whose value
is the tokens joined with single spaces (a single string is stored as is). -/
def classAttr : Klass → List (String × String)
  | Klass.ofStr s => if s = "" then [] else [("class", s)]
  | Klass.ofList l => if l = [] then [] else [("class", pyJoin " " l)]

/-- Python's `attr.replace('_', '-')` (src/tagsclass.py:28), applied
character by character. -/
def pyReplace (s : String) : String :=
  String.mk (s.data.map (fun c => if c = '_' then '-' else c))

/-- Python dict assignment `d[k] = v` on an insertion-ordered dict:
overwrite in place when the key is present, else append at the end. -/
def dictInsert (d : List (String × String)) (k v : String) : List (String × String) :=
  if d.any (fun p => p.1 == k) then d.map (fun p => if p.1 == k then (k, v) else p)
  else d ++ [(k, v)]

/-- `Tag.__init__(tag, klass=(), is_single=False, **kwargs)`
(src/tagsclass.py:12-28): attributes start from the `class` entry derived
from `klass`, then each keyword argument is inserted in order with
underscores in its name replaced by hyphens; `children` starts empty,
`text` empty, `indent` defaults to four spaces. -/
def Tag.init (tag : String) (klass : Klass) (single : Bool)
    (kwargs : List (String × String)) : Tag :=
  Tag.mk tag
    (kwargs.foldl (fun d p => dictInsert d (pyReplace p.1) p.2) (classAttr klass))
    single [] "" "    "

/-- The `HTML` class (src/tagsclass.py:91-100): `output` is the
`out_filepath` argument (`Option.none` models Python `None`), and the tag
state is `Tag.__init__` applied to the name `"html"` with all defaults. -/
structure HTML where
  output : Option String
  toTag : Tag

/-- `HTML.__init__(out_filepath=None)` (src/tagsclass.py:98-100). -/
def HTML.init (out_filepath : Option String) : HTML :=
  { output := out_filepath, toTag := Tag.init "html" (Klass.ofList []) false [] }

/-- A Python value on the right of `+=`: an instance of `Tag`, of
`TopLevelTag`, or of `HTML` (the `isinstance(other, Tag)` family of
src/tagsclass.py:38), or a non-tag value such as a string or `None`. -/
inductive PyVal where
  | ofTag : Tag → PyVal
  | ofTopLevel : Tag → PyVal
  | ofHTML : HTML → PyVal
  | ofStr : String → PyVal
  | ofNone : PyVal

/-- `Tag.__iadd__` (src/tagsclass.py:35-40): append `other` to `children`
when `isinstance(other, Tag)` holds (true for `Tag`, `TopLevelTag` and
`HTML` instances), otherwise do nothing; always return `self`. -/
def Tag.iadd : Tag → PyVal → Tag
  | Tag.mk t a s c x i, PyVal.ofTag child => Tag.mk t a s (c ++ [child]) x i
  | Tag.mk t a s c x i, PyVal.ofTopLevel child => Tag.mk t a s (c ++ [child]) x i
  | Tag.mk t a s c x i, PyVal.ofHTML h => Tag.mk t a s (c ++ [h.toTag]) x i
  | t, PyVal.ofStr _ => t
  | t, PyVal.ofNone => t

/-- The text `HTML.flush` writes when `output` is a file path
(src/tagsclass.py:109-110): `'\n'.join(self.get_lines(indent=self.indent))`. -/
def HTML.flushFileContent (h : HTML) : String :=
  pyJoin "\n" (h.toTag.get_lines (some h.toTag.indent) 0)

/-- The observable effect of one `HTML.flush` call: a console print of some
text, or a write of some content to a file path. -/
inductive FlushEffect where
  | console : String → FlushEffect
  | file : String → String → FlushEffect

/-- `HTML.flush` (src/tagsclass.py:105-110): when `output` is not a string,
`print(self)` writes `str(self)` plus a newline to the console; otherwise the
file at `output` is opened for writing (truncating, UTF-8) and receives the
rendered lines joined with newlines. -/
def HTML.flushEffect (h : HTML) : FlushEffect :=
  match h.output with
  | Option.none => FlushEffect.console (Tag.render_text h.toTag ++ "\n")
  | some path => FlushEffect.file path (HTML.flushFileContent h)

/-- `Tag.__enter__` (src/tagsclass.py:30-31): returns `self`. -/
def Tag.enter (t : Tag) : Tag := t

/-- `HTML.__enter__`, inherited from `Tag` (src/tagsclass.py:30-31):
returns `self`. -/
def HTML.enter (h : HTML) : HTML := h

/-- `Tag.__exit__` (src/tagsclass.py:32-33): `pass`, so no effect. -/
def Tag.exitEffects (_ : Tag) : List FlushEffect := []

/-- `HTML.__exit__` (src/tagsclass.py:102-103): one call to `self.flush()`. -/
def HTML.exitEffects (h : HTML) : List FlushEffect := [h.flushEffect]

/-- The outcome of a `with`-statement body: normal completion with a value,
or a propagating exception. -/
inductive Outcome (α : Type) where
  | ok : α → Outcome α
  | exn : Outcome α

/-- Python `with t as node: body` over a plain `Tag`: `__enter__` yields the
node, the body runs on it, and `__exit__` runs exactly once whether the body
completed or raised (its returned `None` is falsy, so an exception keeps
propagating); the pair collects the body's outcome and the exit effects. -/
def withTag {α : Type} (t : Tag) (body : Tag → Outcome α) : Outcome α × List FlushEffect :=
  let node := Tag.enter t
  (body node, Tag.exitEffects node)

/-- Python `with h as doc: body` over an `HTML` document: same
`with`-statement semantics as `withTag`, with the `HTML.__exit__` effects. -/
def withHTML {α : Type} (h : HTML) (body : HTML → Outcome α) : Outcome α × List FlushEffect :=
  let node := HTML.enter h
  (body node, HTML.exitEffects node)

/-- The keyword arguments of a `TopLevelTag(...)` call
(src/tagsclass.py:88-89): `TopLevelTag.__init__(self, tag, **kwargs)`
collects every keyword argument, and `super().__init__(tag, **kwargs)`
re-binds `klass` and `is_single` from them when present, the rest becoming
`Tag.__init__`'s `**kwargs`.  Absent entries fall back to `Tag.__init__`'s
defaults `klass=()` and `is_single=False`. -/
structure KwArgs where
  klass : Option Klass
  is_single : Option Bool
  attrs : List (String × String)

/-- `Tag.__init__` reached through a keyword-argument call. -/
def Tag.initKw (tag : String) (kw : KwArgs) : Tag :=
  Tag.init tag (kw.klass.getD (Klass.ofList [])) (kw.is_single.getD false) kw.attrs

/-- `TopLevelTag.__init__(tag, **kwargs)` (src/tagsclass.py:83-89): the
whole keyword-argument dict is forwarded to `Tag.__init__`. -/
def TopLevelTag.init (tag : String) (kw : KwArgs) : Tag :=
  Tag.initKw tag kw

/-- Example node: `Tag("span")` with `text = "x"`. -/
def spanX : Tag := Tag.setText (Tag.init "span" (Klass.ofList []) false []) "x"

/-- Example node: `Tag("div")` holding `spanX` as its only child. -/
def divSpan : Tag := Tag.iadd (Tag.init "div" (Klass.ofList []) false []) (PyVal.ofTag spanX)

/-- Example document `HTML('out.txt')` with no children. -/
def exDoc : HTML := HTML.init (some "out.txt")

/-- Example node: `Tag("p")` with `text = "hi"`. -/
def exGrandchild : Tag := Tag.setText (Tag.init "p" (Klass.ofList []) false []) "hi"

/-- Example node: `Tag("section")` holding `exGrandchild`, with its
per-node `indent` left at the default four spaces. -/
def exMid : Tag := Tag.iadd (Tag.init "section" (Klass.ofList []) false []) (PyVal.ofTag exGrandchild)

/-- `exMid` after the per-node override `node.indent = "XX"`. -/
def exMidOverride : Tag := Tag.setIndent exMid "XX"

/-- Example node: `Tag("div")` holding `exMid`. -/
def exRoot : Tag := Tag.iadd (Tag.init "div" (Klass.ofList []) false []) (PyVal.ofTag exMid)

/-- Example node: `Tag("div")` holding `exMidOverride`. -/
def exRootOverride : Tag := Tag.iadd (Tag.init "div" (Klass.ofList []) false []) (PyVal.ofTag exMidOverride)

/-- Prepending the empty string leaves a string unchanged. -/
theorem str_empty_append (s : String) : "" ++ s = s := by
  cases s
  rfl

/-- A serialized attribute pair is a non-empty string: it always contains
the two quote characters and the equals sign. -/
theorem attrPair_pos (p : String × String) : 0 < (attrPair p).length := by
  simp only [attrPair, String.length_append]
  have h : 0 < String.length "\"" := by decide
  omega

/-- Joining a non-empty first element with anything is non-empty. -/
theorem pyJoin_cons_pos (sep x : String) (xs : List String) (hx : 0 < x.length) :
    0 < (pyJoin sep (x :: xs)).length := by
  cases xs with
  | nil => simpa [pyJoin] using hx
  | cons y ys =>
    simp only [pyJoin, String.length_append]
    omega

/-- The serialized attribute string is empty exactly when there are no
attributes, so Python's `if attrs` test coincides with the attribute dict
being non-empty. -/
theorem serializeAttrs_eq_empty_iff (l : List (String × String)) :
    serializeAttrs l = "" ↔ l = [] := by
  cases l with
  | nil => simp [serializeAttrs, pyJoin]
  | cons p rest =>
    simp only [serializeAttrs, List.map_cons]
    constructor
    · intro h
      have hpos := pyJoin_cons_pos " " (attrPair p) (rest.map attrPair) (attrPair_pos p)
      rw [h] at hpos
      exact absurd hpos (by decide)
    · intro h
      simp at h

/-- The child loop of `get_lines` is the per-child map-and-prefix of the
recursive renderings, concatenated in order. -/
theorem childLines_eq (cs : List TagsClass.Tag) (indent : String) :
    Tag.childLines cs indent
      = (cs.map (fun c => (c.get_lines (some indent) 0).map (fun line => indent ++ line))).flatten := by
  induction cs with
  | nil => rfl
  | cons c cs ih => simp [Tag.childLines, ih]

/-- Calling `get_lines` with `indent=None` is calling it with the node's own
`indent` field. -/
theorem get_lines_none (t : Tag) (off : Nat) :
    t.get_lines Option.none off = t.get_lines (some t.indent) off := by
  cases t
  rfl

/-- Dict assignment with a key absent from the dict appends the pair. -/
theorem dictInsert_fresh (d : List (String × String)) (k v : String)
    (h : ∀ q ∈ d, q.1 ≠ k) : dictInsert d k v = d ++ [(k, v)] := by
  unfold dictInsert
  have hany : d.any (fun p => p.1 == k) = false := by
    simp only [List.any_eq_false, beq_iff_eq]
    exact h
  simp [hany]

/-- Folding dict assignment over pairwise-fresh keys that are also fresh for
the initial dict appends the pairs in order. -/
theorem foldl_dictInsert (ks : List (String × String)) :
    ∀ d : List (String × String), (ks.map Prod.fst).Nodup →
      (∀ p ∈ ks, ∀ q ∈ d, q.1 ≠ p.1) →
      ks.foldl (fun acc p => dictInsert acc p.1 p.2) d = d ++ ks := by
  induction ks with
  | nil =>
    intro d _ _
    simp
  | cons p ps ih =>
    intro d hnd hfresh
    simp only [List.foldl_cons]
    rw [dictInsert_fresh d p.1 p.2 (fun q hq => hfresh p (List.mem_cons_self p ps) q hq)]
    rw [ih (d ++ [p]) (by simpa using hnd.of_cons)]
    · simp
    · intro r hr q hq
      rcases List.mem_append.mp hq with hq1 | hq2
      · exact hfresh r (List.mem_cons_of_mem p hr) q hq1
      · have hqp : q = p := by simpa using hq2
        subst hqp
        have hne : q.1 ∉ ps.map Prod.fst := by
          simpa using (List.nodup_cons.mp hnd).1
        intro hcontra
        exact hne (hcontra ▸ List.mem_map_of_mem Prod.fst hr)

/-- Every entry the `klass` argument contributes has the key `class`. -/
theorem classAttr_keys (klass : Klass) : ∀ q ∈ classAttr klass, q.1 = "class" := by
  cases klass with
  | ofStr s =>
    intro q hq
    simp only [classAttr] at hq
    split at hq <;> simp_all
  | ofList l =>
    intro q hq
    simp only [classAttr] at hq
    split at hq <;> simp_all

/-- C1: a paired tag rendered with indent unit `s` yields the opening line
`<name attrs>` (space before attrs only when attributes exist), then—when
`text` is non-empty—one line `s ++ text`, then each child's recursively
rendered lines each prefixed with one copy of `s`, then the closing line
`</name>`; in particular a `div` holding one `span` child with text `"x"`
rendered with `s` two spaces yields exactly
`["<div>", "  <span>", "    x", "  </span>", "</div>"]`. -/
theorem paired_tag_render_spec (tag : String) (attributes : List (String × String))
    (children : List Tag) (text ind s : String) :
    (Tag.mk tag attributes false children text ind).get_lines (some s) 0
      = ["<" ++ tag ++ (if attributes = [] then "" else " " ++ serializeAttrs attributes) ++ ">"]
        ++ (if text = "" then [] else [s ++ text])
        ++ (children.map (fun c => (c.get_lines (some s) 0).map (fun line => s ++ line))).flatten
        ++ ["</" ++ tag ++ ">"]
    ∧ divSpan.get_lines (some "  ") 0 = ["<div>", "  <span>", "    x", "  </span>", "</div>"] := by
  constructor
  · by_cases h : attributes = []
    · subst h
      simp [Tag.get_lines, childLines_eq, serializeAttrs, pyJoin]
    · have h2 : serializeAttrs attributes ≠ "" :=
        fun e => h ((serializeAttrs_eq_empty_iff attributes).mp e)
      simp [Tag.get_lines, childLines_eq, h, h2]
  · rfl

/-- C2: a single tag renders to exactly one line `<name attrs/>`, with a
single space before the serialized attributes exactly when at least one
attribute is present; in particular `Tag("img", is_single=True,
src="/icon.png")` renders to the one line `<img src="/icon.png"/>`. -/
theorem single_tag_render_spec (tag : String) (attributes : List (String × String))
    (children : List Tag) (text ind s : String) :
    (Tag.mk tag attributes true children text ind).get_lines (some s) 0
      = ["<" ++ tag ++ (if attributes = [] then "" else " " ++ serializeAttrs attributes) ++ "/>"]
    ∧ (Tag.init "img" (Klass.ofList []) true [("src", "/icon.png")]).get_lines Option.none 0
      = ["<img src=\"/icon.png\"/>"] := by
  constructor
  · by_cases h : attributes = []
    · subst h
      simp [Tag.get_lines, serializeAttrs, pyJoin, strRepeat, str_empty_append]
    · have h2 : serializeAttrs attributes ≠ "" :=
        fun e => h ((serializeAttrs_eq_empty_iff attributes).mp e)
      simp [Tag.get_lines, h, h2, strRepeat, str_empty_append]
  · rfl

/-- C3: construction stores first the `class` attribute (its value the class
tokens joined with single spaces) when a class was supplied, then every
other supplied attribute in the order given, each name with its underscores
replaced by hyphens; serialization follows this stored order (by
`serializeAttrs`, which maps the stored list in order).  The hypotheses say
the normalized keyword names are pairwise distinct and none collides with
`class`, which holds for every call whose keywords are distinct Python
identifiers. -/
theorem init_attributes_spec (tag : String) (klass : Klass) (single : Bool)
    (kwargs : List (String × String))
    (hnodup : (kwargs.map (fun p => pyReplace p.1)).Nodup)
    (hclass : ∀ p ∈ kwargs, pyReplace p.1 ≠ "class") :
    (Tag.init tag klass single kwargs).attributes
      = classAttr klass ++ kwargs.map (fun p => (pyReplace p.1, p.2)) := by
  simp only [Tag.init, Tag.attributes]
  have hfold : kwargs.foldl (fun d p => dictInsert d (pyReplace p.1) p.2) (classAttr klass)
      = (kwargs.map (fun p => (pyReplace p.1, p.2))).foldl
          (fun acc p => dictInsert acc p.1 p.2) (classAttr klass) :=
    (List.foldl_map (fun p => (pyReplace p.1, p.2))
      (fun acc p => dictInsert acc p.1 p.2) kwargs (classAttr klass)).symm
  rw [hfold]
  apply foldl_dictInsert
  · simpa [List.map_map, Function.comp] using hnodup
  · intro p hp q hq
    rw [classAttr_keys klass q hq]
    rcases List.mem_map.mp hp with ⟨r, hr, hrp⟩
    rw [← hrp]
    exact Ne.symm (hclass r hr)

/-- Witness for C3 at `Tag("div", klass=("a","b"), data_x="1", id="lead")`:
the stored attributes are `class="a b"`, then `data-x="1"`, then
`id="lead"`. -/
theorem init_attributes_spec_inst :
    (Tag.init "div" (Klass.ofList ["a", "b"]) false
        [("data_x", "1"), ("id", "lead")]).attributes
      = [("class", "a b"), ("data-x", "1"), ("id", "lead")] :=
  (init_attributes_spec "div" (Klass.ofList ["a", "b"]) false
      [("data_x", "1"), ("id", "lead")] (by decide) (by decide)).trans (by decide)

/-- C4 counterexample: for the document `HTML('out.txt')` the file content
written by `flush` is `"<html>\n</html>"`, which is not `render_text` plus a
trailing newline — `fp.write('\n'.join(...))` writes no final newline. -/
theorem flush_trailing_newline_cex :
    HTML.flushFileContent exDoc = "<html>" ++ "\n" ++ "</html>"
    ∧ HTML.flushFileContent exDoc ≠ Tag.render_text exDoc.toTag ++ "\n" := by
  constructor
  · rfl
  · decide

/-- C4 amended: flushing a document whose output target is a file path
writes to that path (truncating, UTF-8) exactly the result of
`render_text` — the rendered lines joined with newline characters — with no
trailing newline after the final line. -/
theorem flush_file_eq_render_text (h : HTML) (path : String)
    (hp : h.output = some path) :
    HTML.flushEffect h = FlushEffect.file path (Tag.render_text h.toTag) := by
  simp [HTML.flushEffect, hp, HTML.flushFileContent, Tag.render_text, get_lines_none]

/-- Witness for the amended C4 at `HTML('page.html')`. -/
theorem flush_file_eq_render_text_inst :
    HTML.flushEffect (HTML.init (some "page.html"))
      = FlushEffect.file "page.html" (Tag.render_text (HTML.init (some "page.html")).toTag) :=
  flush_file_eq_render_text (HTML.init (some "page.html")) "page.html" rfl

/-- C5 counterexample: overriding a non-root node's `indent` field from the
default four spaces to `"XX"` leaves the rendered output of its parent
byte-for-byte unchanged — `get_lines` passes its own resolved `indent` to
every child, never reading a non-root child's `indent` field. -/
theorem indent_override_inert_cex :
    exRootOverride.get_lines (some "  ") 0 = exRoot.get_lines (some "  ") 0
    ∧ exMidOverride.indent = "XX"
    ∧ exMid.indent = "    "
    ∧ exRoot.get_lines (some "  ") 0
      = ["<div>", "  <section>", "    <p>", "      hi", "    </p>", "  </section>", "</div>"] := by
  refine ⟨rfl, rfl, rfl, rfl⟩

/-- C5 amended: a node's per-instance `indent` (default four spaces) is used
only when that node is the root of the render call and no explicit indent
argument is given (`indent=None`, as `__str__` does); with an explicit
indent argument the node's own `indent` field is ignored, so a per-node
override on a non-root node has no effect on the rendered output. -/
theorem indent_unit_usage (tag : String) (klass : Klass) (single : Bool)
    (kwargs : List (String × String)) (t : Tag) (newInd s : String) (off : Nat) :
    (Tag.init tag klass single kwargs).indent = "    "
    ∧ t.get_lines Option.none off = t.get_lines (some t.indent) off
    ∧ (t.setIndent newInd).get_lines (some s) off = t.get_lines (some s) off := by
  refine ⟨rfl, get_lines_none t off, ?_⟩
  cases t
  rfl

/-- C6: `+=` returns the same parent instance (every field other than
`children` is preserved, and the operation is total, so no error); a `Tag`,
`TopLevelTag` or `HTML` right operand is appended at the end of the child
sequence, while any other value (a plain string, `None`) leaves the child
sequence entirely unchanged. -/
theorem iadd_spec (t : Tag) (v : PyVal) :
    ((t.iadd v).tag = t.tag ∧ (t.iadd v).attributes = t.attributes
      ∧ (t.iadd v).is_single = t.is_single ∧ (t.iadd v).text = t.text
      ∧ (t.iadd v).indent = t.indent)
    ∧ (t.iadd v).children
      = (match v with
         | PyVal.ofTag c => t.children ++ [c]
         | PyVal.ofTopLevel c => t.children ++ [c]
         | PyVal.ofHTML h => t.children ++ [h.toTag]
         | PyVal.ofStr _ => t.children
         | PyVal.ofNone => t.children) := by
  cases t
  cases v <;> exact ⟨⟨rfl, rfl, rfl, rfl, rfl⟩, rfl⟩

/-- C7: the rendering of a single tag is independent of its `children` and
`text` fields — two single tags identical except in those fields render to
identical line sequences, and appending a child or setting text on a single
tag never surfaces in its rendering. -/
theorem single_ignores_children_and_text (tag : String)
    (attributes : List (String × String)) (children children2 : List Tag)
    (text text2 ind : String) (indentArg : Option String) (off : Nat) :
    (Tag.mk tag attributes true children text ind).get_lines indentArg off
      = (Tag.mk tag attributes true children2 text2 ind).get_lines indentArg off
    ∧ ∀ (c : Tag) (x2 : String),
        (Tag.setText ((Tag.mk tag attributes true children text ind).iadd (PyVal.ofTag c)) x2).get_lines indentArg off
          = (Tag.mk tag attributes true children text ind).get_lines indentArg off := by
  exact ⟨rfl, fun c x2 => rfl⟩

/-- C8: entering a scope yields the node itself; exiting a plain `Tag`
scope performs no observable action; exiting an `HTML` document scope
triggers exactly one flush, for every body — including one that raises an
exception that then propagates. -/
theorem scoped_use_spec :
    (∀ t : Tag, Tag.enter t = t)
    ∧ (∀ h : HTML, HTML.enter h = h)
    ∧ (∀ (t : Tag) (body : Tag → Outcome Unit), withTag t body = (body t, []))
    ∧ (∀ (h : HTML) (body : HTML → Outcome Unit),
        (withHTML h body).2 = [HTML.flushEffect h] ∧ (withHTML h body).1 = body h)
    ∧ (∀ h : HTML, (withHTML h (fun _ => (Outcome.exn : Outcome Unit))).2
        = [HTML.flushEffect h]) := by
  exact ⟨fun t => rfl, fun h => rfl, fun t body => rfl,
    fun h body => ⟨rfl, rfl⟩, fun h => rfl⟩

/-- C9: `TopLevelTag.__init__` forwards its whole keyword-argument dict to
`Tag.__init__`, so for every keyword-argument combination the resulting node
has state identical to the corresponding `Tag` and behaves identically under
rendering, composition and scoped use. -/
theorem topleveltag_refines_tag (tag : String) (kw : KwArgs) :
    TopLevelTag.init tag kw = Tag.initKw tag kw
    ∧ ((TopLevelTag.init tag kw).tag = (Tag.initKw tag kw).tag
      ∧ (TopLevelTag.init tag kw).attributes = (Tag.initKw tag kw).attributes
      ∧ (TopLevelTag.init tag kw).is_single = (Tag.initKw tag kw).is_single
      ∧ (TopLevelTag.init tag kw).children = (Tag.initKw tag kw).children
      ∧ (TopLevelTag.init tag kw).text = (Tag.initKw tag kw).text
      ∧ (TopLevelTag.init tag kw).indent = (Tag.initKw tag kw).indent)
    ∧ (∀ (indentArg : Option String) (off : Nat),
        (TopLevelTag.init tag kw).get_lines indentArg off
          = (Tag.initKw tag kw).get_lines indentArg off)
    ∧ (∀ v : PyVal, (TopLevelTag.init tag kw).iadd v = (Tag.initKw tag kw).iadd v)
    ∧ (∀ body : Tag → Outcome Unit,
        withTag (TopLevelTag.init tag kw) body = withTag (Tag.initKw tag kw) body) := by
  exact ⟨rfl, ⟨rfl, rfl, rfl, rfl, rfl, rfl⟩, fun i o => rfl, fun v => rfl, fun body => rfl⟩

/-- C10: rendering with the undocumented `set_offset` argument equal to `k`
returns exactly the offset-0 lines, each prefixed with `k` concatenated
copies of the indent string — for single and paired tags alike. -/
theorem get_lines_offset_law (t : Tag) (s : String) (k : Nat) :
    t.get_lines (some s) k = (t.get_lines (some s) 0).map (fun line => strRepeat s k ++ line) := by
  cases t with
  | mk tg a single c x i =>
    cases single with
    | true => simp [Tag.get_lines, strRepeat, str_empty_append]
    | false =>
      cases k with
      | zero => simp [Tag.get_lines, strRepeat, str_empty_append]
      | succ n => simp [Tag.get_lines]

end TagsClass
